import Mathlib

/-!
Verification of the real-time physiological anomaly-detection engine.

The development shallowly embeds the pipeline's core:
  * `validateReading`    — the Pydantic model `VitalsReading` (src/api/validators.py)
  * `check_rate_limit`   — the per-patient fixed-window limiter (src/api/main.py)
  * `ingest_vitals`      — the ingest orchestrator (src/api/main.py)
  * `SlidingWindow`      — the per-patient window deques (src/worker/windows.py)
  * `process_event`      — the stream worker's per-entry logic (src/worker/processor.py)

Timestamps are modelled as `Int` epoch seconds; real-valued fields as `ℚ`.
Fallible steps return `Except`; external faults (database down, stream down)
are explicit boolean parameters.  The ingest produces, besides its HTTP
response and the new system state, a trace of the side-effecting actions it
performed, in order, so that commit-ordering claims are statements about the
trace.
-/

/-- A candidate vitals reading as received by the API, after JSON decoding
but before Pydantic validation (src/api/validators.py, `VitalsReading`).
`timestamp` is epoch seconds. -/
structure Candidate where
  patient_id : String
  timestamp : Int
  hr : Int
  bp_sys : Int
  bp_dia : Int
  spo2 : Int
  rr : Int
  temp : ℚ
deriving DecidableEq, Repr

instance {α β : Type} [DecidableEq α] [DecidableEq β] : DecidableEq (Except α β) := fun
  | .ok a, .ok b => decidable_of_iff (a = b) (by simp)
  | .ok _, .error _ => isFalse (by simp)
  | .error _, .ok _ => isFalse (by simp)
  | .error a, .error b => decidable_of_iff (a = b) (by simp)

/-- Pydantic validation of `VitalsReading` (src/api/validators.py lines 5-30):
field constraints in declaration order, then the `timestamp_not_future`
validator, which rejects exactly when `(v - current).total_seconds() > 300`.
Returns the offending field's name on failure. -/
def validateReading (now : Int) (c : Candidate) : Except String Candidate :=
  if c.patient_id.length < 1 ∨ 50 < c.patient_id.length then .error "patient_id"
  else if 300 < c.timestamp - now then .error "timestamp"
  else if c.hr < 30 ∨ 250 < c.hr then .error "hr"
  else if c.bp_sys < 50 ∨ 250 < c.bp_sys then .error "bp_sys"
  else if c.bp_dia < 30 ∨ 150 < c.bp_dia then .error "bp_dia"
  else if c.spo2 < 50 ∨ 100 < c.spo2 then .error "spo2"
  else if c.rr < 4 ∨ 60 < c.rr then .error "rr"
  else if c.temp < 30 ∨ 45 < c.temp then .error "temp"
  else .ok c

/-- The example reading of the spec's scenario S1 (temp 36.8 °C), used as a
base point for boundary checks. -/
def exampleReading : Candidate :=
  { patient_id := "pt-1", timestamp := 0, hr := 72, bp_sys := 120,
    bp_dia := 80, spo2 := 98, rr := 16, temp := mkRat 368 10 }

/-- One row of the `vitals_events` table (schema in the spec, §6), with the
server-assigned serial id. -/
structure EventRow where
  id : ℕ
  patient_id : String
  timestamp : Int
  hr : Int
  bp_sys : Int
  bp_dia : Int
  spo2 : Int
  rr : Int
  temp : ℚ
deriving DecidableEq, Repr

/-- One entry of the `vitals_stream` log: the reading's fields plus the
database id, as built by the ingest before `xadd` (src/api/main.py 157-159). -/
structure StreamEntry where
  patient_id : String
  timestamp : Int
  hr : Int
  bp_sys : Int
  bp_dia : Int
  spo2 : Int
  rr : Int
  temp : ℚ
  db_id : ℕ
deriving DecidableEq, Repr

/-- The state visible to the ingest path: the cache (rate counters with
their TTL flags, idempotency keys), the relational store (patients,
event rows, the serial counter) and the stream log. -/
structure SysState where
  rate : String → ℕ
  rateTtlSet : String → Bool
  idem : List String
  patients : List String
  events : List EventRow
  nextEventId : ℕ
  stream : List StreamEntry

def initState : SysState :=
  { rate := fun _ => 0, rateTtlSet := fun _ => false, idem := [],
    patients := [], events := [], nextEventId := 1, stream := [] }

/-- `check_rate_limit` (src/api/main.py lines 94-102): atomically increment
`rate_limit:{patient_id}`, set a 10 s expiry iff the incremented value is 1,
and raise 429 iff the incremented value exceeds 20.  Returns the new state,
whether `expire` was called, and whether the request was rejected. -/
def check_rate_limit (s : SysState) (patient_id : String) :
    SysState × Bool × Bool :=
  let current := s.rate patient_id + 1
  let s1 := { s with
    rate := fun p => if p = patient_id then current else s.rate p,
    rateTtlSet := fun p =>
      if p = patient_id ∧ current = 1 then true else s.rateTtlSet p }
  (s1, decide (current = 1), decide (20 < current))

/-- `get_idempotency_key` (src/api/main.py lines 82-87) hashes
`patient_id ++ ":" ++ timestamp_iso`.  The SHA-256 is modelled by the
(injective) raw string itself. -/
def get_idempotency_key (r : Candidate) : String :=
  r.patient_id ++ ":" ++ toString r.timestamp

def idemKeyOf (r : Candidate) : String := "idem:" ++ get_idempotency_key r

/-- Response bodies of the ingest endpoint. -/
inductive Body
  | queued (id : ℕ) (db_id : ℕ)
  | ignored
  | detail (msg : String)
deriving DecidableEq, Repr

/-- An HTTP response: a plain `return` on the `/ingest` route carries the
route decorator's status `202` (`status_code=status.HTTP_202_ACCEPTED`); a
raised `HTTPException` carries its own status. -/
structure Response where
  status : ℕ
  body : Body
deriving DecidableEq, Repr

/-- Side-effecting actions of one ingest call, in execution order. -/
inductive Act
  | dbCommit
  | streamPublish
  | setIdem
deriving DecidableEq, Repr

/-- Whether an event row with the given `(patient_id, timestamp)` already
exists — the unique index on `vitals_events (patient_id, timestamp)`. -/
def hasEvent (events : List EventRow) (pid : String) (ts : Int) : Bool :=
  events.any fun e => e.patient_id == pid && e.timestamp == ts

/-- The durable transaction of the ingest (src/api/main.py lines 124-150):
patient upsert (`ON CONFLICT (id) DO NOTHING`) then the event-row insert
`RETURNING id`, in a single connection block — on any `psycopg.Error` the
transaction is rolled back, so the caller's state is unchanged.  The unique
index on `(patient_id, timestamp)` makes the insert raise when the pair is
already stored; `dbFault` injects any other database failure. -/
def dbCommitTx (dbFault : Bool) (s : SysState) (r : Candidate) :
    Except Unit (SysState × ℕ) :=
  if dbFault then .error ()
  else if hasEvent s.events r.patient_id r.timestamp then .error ()
  else
    let pats := if s.patients.contains r.patient_id then s.patients
                else s.patients ++ [r.patient_id]
    let row : EventRow :=
      ⟨s.nextEventId, r.patient_id, r.timestamp, r.hr, r.bp_sys, r.bp_dia,
       r.spo2, r.rr, r.temp⟩
    let s' : SysState :=
      { s with
        patients := pats
        events := s.events ++ [row]
        nextEventId := s.nextEventId + 1 }
    .ok (s', s.nextEventId)

/-- `ingest_vitals` (src/api/main.py lines 104-179) on an
already-validated reading: rate limit, idempotency-cache lookup, durable
commit, stream publish, idempotency-key set.  Any `psycopg.Error` in the
durable step maps to a 500; an `xadd` failure (`streamFault`) maps to a 503
after the durable commit and before the idempotency key is set.  The third
component is the trace of performed side effects in order. -/
def ingest_vitals (dbFault streamFault : Bool) (s : SysState) (r : Candidate) :
    Response × SysState × List Act :=
  let res := check_rate_limit s r.patient_id
  let s1 := res.1
  if res.2.2 then
    (⟨429, .detail "Rate limit exceeded for this patient ID"⟩, s1, [])
  else
    let idem_key := idemKeyOf r
    if s1.idem.contains idem_key then (⟨202, .ignored⟩, s1, [])
    else
      match dbCommitTx dbFault s1 r with
      | .error _ => (⟨500, .detail "Database persistence failed"⟩, s1, [])
      | .ok (s2, event_id) =>
        if streamFault then
          (⟨503, .detail "Stream service unavailable"⟩, s2, [.dbCommit])
        else
          let entry : StreamEntry :=
            ⟨r.patient_id, r.timestamp, r.hr, r.bp_sys, r.bp_dia, r.spo2,
             r.rr, r.temp, event_id⟩
          let s3 := { s2 with stream := s2.stream ++ [entry] }
          let s4 := { s3 with idem := s3.idem ++ [idem_key] }
          (⟨202, .queued s3.stream.length event_id⟩, s4,
           [.dbCommit, .streamPublish, .setIdem])

/-- C9: a candidate is accepted by the validator iff every field lies in its
stated inclusive range and the timestamp is at most 300 s after the current
clock; boundary values are admitted, values just outside are rejected with
the offending field's name. -/
theorem validateReading_iff_ranges (now : Int) (c : Candidate) :
    (validateReading now c = .ok c ↔
      (1 ≤ c.patient_id.length ∧ c.patient_id.length ≤ 50 ∧
       c.timestamp ≤ now + 300 ∧
       30 ≤ c.hr ∧ c.hr ≤ 250 ∧
       50 ≤ c.bp_sys ∧ c.bp_sys ≤ 250 ∧
       30 ≤ c.bp_dia ∧ c.bp_dia ≤ 150 ∧
       50 ≤ c.spo2 ∧ c.spo2 ≤ 100 ∧
       4 ≤ c.rr ∧ c.rr ≤ 60 ∧
       30 ≤ c.temp ∧ c.temp ≤ 45)) ∧
    validateReading 0 { exampleReading with hr := 30 } =
      .ok { exampleReading with hr := 30 } ∧
    validateReading 0 { exampleReading with hr := 29 } = .error "hr" ∧
    validateReading 0 { exampleReading with timestamp := 299 } =
      .ok { exampleReading with timestamp := 299 } ∧
    validateReading 0 { exampleReading with timestamp := 301 } = .error "timestamp" := by
  refine ⟨?_, by decide, by decide, by decide, by decide⟩
  unfold validateReading
  split_ifs with h1 h2 h3 h4 h5 h6 h7 h8
  · exact iff_of_false (by simp) (fun hp => by omega)
  · exact iff_of_false (by simp) (fun hp => by omega)
  · exact iff_of_false (by simp) (fun hp => by omega)
  · exact iff_of_false (by simp) (fun hp => by omega)
  · exact iff_of_false (by simp) (fun hp => by omega)
  · exact iff_of_false (by simp) (fun hp => by omega)
  · exact iff_of_false (by simp) (fun hp => by omega)
  · refine iff_of_false (by simp) (fun hp => ?_)
    rcases h8 with h | h
    · linarith [hp.2.2.2.2.2.2.2.2.2.2.2.2.2.1]
    · linarith [hp.2.2.2.2.2.2.2.2.2.2.2.2.2.2]
  · refine iff_of_true rfl ?_
    push_neg at h1 h2 h3 h4 h5 h6 h7 h8
    exact ⟨by omega, by omega, by omega, by omega, by omega, by omega, by omega, by omega,
           by omega, by omega, by omega, by omega, by omega, h8.1, h8.2⟩

/-- The cache state after `n` successive ingest attempts for `pid` starting
from a fresh cache (all attempts within one 10 s window, so no expiry). -/
def rateAttempts (pid : String) : ℕ → SysState
  | 0 => initState
  | n + 1 => (check_rate_limit (rateAttempts pid n) pid).1

/-- C8: each attempt increments the per-patient counter; `expire` (10 s) is
called exactly when the incremented value is 1; an attempt is admitted iff
the incremented value is at most 20 and otherwise the ingest returns 429; in
particular the 20th attempt in a fresh window is admitted and the 21st is
rejected. -/
theorem check_rate_limit_spec :
    (∀ (s : SysState) (pid : String),
      (check_rate_limit s pid).1.rate pid = s.rate pid + 1 ∧
      ((check_rate_limit s pid).2.1 = true ↔ s.rate pid + 1 = 1) ∧
      ((check_rate_limit s pid).2.2 = false ↔ s.rate pid + 1 ≤ 20)) ∧
    (∀ (pid : String) (n : ℕ), (rateAttempts pid n).rate pid = n) ∧
    (∀ (dbF sF : Bool) (s : SysState) (r : Candidate),
      20 < s.rate r.patient_id + 1 →
      ingest_vitals dbF sF s r =
        (⟨429, .detail "Rate limit exceeded for this patient ID"⟩,
         (check_rate_limit s r.patient_id).1, [])) ∧
    (check_rate_limit (rateAttempts "pt-2" 19) "pt-2").2.2 = false ∧
    (check_rate_limit (rateAttempts "pt-2" 20) "pt-2").2.2 = true := by
  have hstep : ∀ (s : SysState) (pid : String),
      (check_rate_limit s pid).1.rate pid = s.rate pid + 1 := by
    intro s pid
    simp [check_rate_limit]
  have hiter : ∀ (pid : String) (n : ℕ), (rateAttempts pid n).rate pid = n := by
    intro pid n
    induction n with
    | zero => rfl
    | succ k ih => rw [rateAttempts, hstep, ih]
  have hinc1 : ∀ (s : SysState) (pid : String),
      ((check_rate_limit s pid).2.1 = true ↔ s.rate pid + 1 = 1) := by
    intro s pid
    simp [check_rate_limit]
  have hadm : ∀ (s : SysState) (pid : String),
      ((check_rate_limit s pid).2.2 = false ↔ s.rate pid + 1 ≤ 20) := by
    intro s pid
    simp only [check_rate_limit, decide_eq_false_iff_not, Nat.not_lt]
  refine ⟨fun s pid => ⟨hstep s pid, hinc1 s pid, hadm s pid⟩, hiter, ?_, ?_, ?_⟩
  · intro dbF sF s r h
    simp [ingest_vitals, check_rate_limit, h]
  · rw [hadm, hiter]
  · simp [check_rate_limit, hiter "pt-2" 20]

/-- Witness for C8: with the counter at 20, the next ingest attempt (the
21st in the window) is rejected with HTTP 429. -/
theorem check_rate_limit_spec_witness :
    ingest_vitals false false { initState with rate := fun _ => 20 }
        exampleReading =
      (⟨429, .detail "Rate limit exceeded for this patient ID"⟩,
       (check_rate_limit { initState with rate := fun _ => 20 }
          exampleReading.patient_id).1, []) :=
  check_rate_limit_spec.2.2.1 false false _ exampleReading (by decide)

/-- C1: for a validated, rate-admitted, non-duplicate ingest, the durable
commit precedes the stream publish, and the idempotency key is set only
after a successful publish; on publish failure the request returns 503, the
committed event row remains stored, and the idempotency key is not set. -/
theorem ingest_commit_order (s : SysState) (r : Candidate)
    (hrate : s.rate r.patient_id + 1 ≤ 20)
    (hidem : s.idem.contains (idemKeyOf r) = false)
    (hdup : hasEvent s.events r.patient_id r.timestamp = false) :
    ((ingest_vitals false false s r).2.2 =
        [.dbCommit, .streamPublish, .setIdem] ∧
     (ingest_vitals false false s r).1.status = 202 ∧
     hasEvent (ingest_vitals false false s r).2.1.events
        r.patient_id r.timestamp = true ∧
     (ingest_vitals false false s r).2.1.idem.contains (idemKeyOf r) = true) ∧
    ((ingest_vitals false true s r).1 =
        ⟨503, .detail "Stream service unavailable"⟩ ∧
     (ingest_vitals false true s r).2.2 = [.dbCommit] ∧
     hasEvent (ingest_vitals false true s r).2.1.events
        r.patient_id r.timestamp = true ∧
     (ingest_vitals false true s r).2.1.idem = s.idem) := by
  have h1 : ¬ (20 < s.rate r.patient_id + 1) := by omega
  have h2 : idemKeyOf r ∉ s.idem := by simpa using hidem
  have h3 : ¬ ∃ x ∈ s.events,
      x.patient_id = r.patient_id ∧ x.timestamp = r.timestamp := by
    simpa [hasEvent] using hdup
  constructor
  · refine ⟨?_, ?_, ?_, ?_⟩ <;>
      simp [ingest_vitals, check_rate_limit, dbCommitTx, hasEvent, h1, h2, h3]
  · refine ⟨?_, ?_, ?_, ?_⟩ <;>
      simp [ingest_vitals, check_rate_limit, dbCommitTx, hasEvent, h1, h2, h3]

/-- Witness for C1: the S1 reading ingested into the empty system, with the
stream unavailable, returns 503 while the event row is durably stored. -/
theorem ingest_commit_order_witness :
    (ingest_vitals false true initState exampleReading).1 =
      ⟨503, .detail "Stream service unavailable"⟩ ∧
    hasEvent (ingest_vitals false true initState exampleReading).2.1.events
      exampleReading.patient_id exampleReading.timestamp = true :=
  ⟨(ingest_commit_order initState exampleReading (by decide) (by decide)
      (by decide)).2.1,
   (ingest_commit_order initState exampleReading (by decide) (by decide)
      (by decide)).2.2.2.1⟩

/-- A store already holding the S1 reading's event row (its idempotency
cache entry expired), so a replay hits the relational unique index. -/
def dupState : SysState :=
  { initState with
    events := [⟨1, "pt-1", 0, 72, 120, 80, 98, 16, mkRat 368 10⟩]
    nextEventId := 2 }

/-- Counterexample to C2: replaying the S1 reading when its `(patient_id,
timestamp)` row already exists (cache entry expired) makes the durable
insert hit the unique index, and the ingest returns the generic HTTP 500
`Database persistence failed` — no `DuplicatePersisted`, not the
duplicate-success response. -/
theorem ingest_unique_violation_is_500 :
    (ingest_vitals false false dupState exampleReading).1 =
      ⟨500, .detail "Database persistence failed"⟩ ∧
    (ingest_vitals false false dupState exampleReading).1.body ≠ .ignored ∧
    (ingest_vitals false false dupState exampleReading).1.status ≠ 200 ∧
    (ingest_vitals false false dupState exampleReading).1.status ≠ 202 := by
  refine ⟨by decide, by decide, by decide, by decide⟩

/-- C2 as amended: a unique-constraint violation of `(patient_id,
timestamp)` is caught with every other `psycopg.Error` and surfaces as HTTP
500 `Database persistence failed`; the transaction is rolled back and
neither stream nor idempotency cache is touched. -/
theorem ingest_unique_violation_500 (s : SysState) (r : Candidate)
    (hrate : s.rate r.patient_id + 1 ≤ 20)
    (hidem : s.idem.contains (idemKeyOf r) = false)
    (hdup : hasEvent s.events r.patient_id r.timestamp = true) :
    (ingest_vitals false false s r).1 =
      ⟨500, .detail "Database persistence failed"⟩ ∧
    (ingest_vitals false false s r).2.1.events = s.events ∧
    (ingest_vitals false false s r).2.1.stream = s.stream ∧
    (ingest_vitals false false s r).2.1.idem = s.idem ∧
    (ingest_vitals false false s r).2.2 = [] := by
  have h1 : ¬ (20 < s.rate r.patient_id + 1) := by omega
  have h2 : idemKeyOf r ∉ s.idem := by simpa using hidem
  have h3 : ∃ x ∈ s.events,
      x.patient_id = r.patient_id ∧ x.timestamp = r.timestamp := by
    simpa [hasEvent] using hdup
  refine ⟨?_, ?_, ?_, ?_, ?_⟩ <;>
    simp [ingest_vitals, check_rate_limit, dbCommitTx, hasEvent, h1, h2, h3]

/-- Witness for the amended C2 at the concrete duplicate state. -/
theorem ingest_unique_violation_500_witness :
    (ingest_vitals false false dupState exampleReading).1 =
      ⟨500, .detail "Database persistence failed"⟩ ∧
    (ingest_vitals false false dupState exampleReading).2.1.events =
      dupState.events :=
  ⟨(ingest_unique_violation_500 dupState exampleReading (by decide) (by decide)
      (by decide)).1,
   (ingest_unique_violation_500 dupState exampleReading (by decide) (by decide)
      (by decide)).2.1⟩

/-- A cache already holding the S1 reading's idempotency key (within the
600 s TTL). -/
def cachedState : SysState :=
  { initState with idem := [idemKeyOf exampleReading] }

/-- Counterexample to C3: on an idempotency-cache hit the endpoint returns
the `ignored/duplicate_event_cache` body under the route decorator's status
202 (`status_code=status.HTTP_202_ACCEPTED`), not HTTP 200 as claimed. -/
theorem ingest_cache_hit_is_202 :
    (ingest_vitals false false cachedState exampleReading).1 =
      ⟨202, .ignored⟩ ∧
    (ingest_vitals false false cachedState exampleReading).1.status ≠ 200 := by
  refine ⟨by decide, by decide⟩

/-- C3 as amended: on an idempotency-cache hit the ingest returns status 202
with `{status: "ignored", detail: "duplicate_event_cache"}` and performs no
durable write and no stream append (only the rate counter was already
incremented). -/
theorem ingest_cache_hit_ignored (dbF sF : Bool) (s : SysState) (r : Candidate)
    (hrate : s.rate r.patient_id + 1 ≤ 20)
    (hhit : s.idem.contains (idemKeyOf r) = true) :
    (ingest_vitals dbF sF s r).1 = ⟨202, .ignored⟩ ∧
    (ingest_vitals dbF sF s r).2.1.events = s.events ∧
    (ingest_vitals dbF sF s r).2.1.patients = s.patients ∧
    (ingest_vitals dbF sF s r).2.1.stream = s.stream ∧
    (ingest_vitals dbF sF s r).2.1.idem = s.idem ∧
    (ingest_vitals dbF sF s r).2.2 = [] := by
  have h1 : ¬ (20 < s.rate r.patient_id + 1) := by omega
  have h2 : idemKeyOf r ∈ s.idem := by simpa using hhit
  refine ⟨?_, ?_, ?_, ?_, ?_, ?_⟩ <;>
    simp [ingest_vitals, check_rate_limit, h1, h2]

/-- Witness for the amended C3 at the concrete cached state. -/
theorem ingest_cache_hit_ignored_witness :
    (ingest_vitals false false cachedState exampleReading).1 =
      ⟨202, .ignored⟩ ∧
    (ingest_vitals false false cachedState exampleReading).2.1.stream =
      cachedState.stream :=
  ⟨(ingest_cache_hit_ignored false false cachedState exampleReading
      (by decide) (by decide)).1,
   (ingest_cache_hit_ignored false false cachedState exampleReading
      (by decide) (by decide)).2.2.2.1⟩

/-- A reading at the worker after field parsing (src/worker/processor.py
lines 48-56). -/
structure WReading where
  timestamp : Int
  hr : Int
  bp_sys : Int
  bp_dia : Int
  spo2 : Int
  rr : Int
  temp : ℚ
deriving DecidableEq, Repr, Inhabited

/-- One sliding window: a size in seconds and the deque of retained
readings, head leftmost (src/worker/windows.py lines 5-8). -/
structure SlidingWindow where
  size_seconds : Int
  events : List WReading
deriving DecidableEq, Repr

/-- `SlidingWindow._prune` (src/worker/windows.py lines 14-17): pop entries
from the head while the head's timestamp is strictly below the cutoff; the
loop stops at the first in-range head. -/
def pruneHead (cutoff : Int) : List WReading → List WReading
  | [] => []
  | e :: rest =>
    if e.timestamp < cutoff then pruneHead cutoff rest else e :: rest

/-- `SlidingWindow.add_event` (src/worker/windows.py lines 10-12): append,
then prune with the just-added reading's timestamp as the reference. -/
def SlidingWindow.add_event (w : SlidingWindow) (r : WReading) :
    SlidingWindow :=
  { w with events := pruneHead (r.timestamp - w.size_seconds)
                       (w.events ++ [r]) }

def SlidingWindow.addAll (w : SlidingWindow) : List WReading → SlidingWindow
  | [] => w
  | r :: rs => (w.add_event r).addAll rs

/-- Python's bankers-rounding `round(x)` on a rational. -/
def roundHalfEven (x : ℚ) : Int :=
  let f := ⌊x⌋
  if x - f < mkRat 1 2 then f
  else if mkRat 1 2 < x - f then f + 1
  else if f % 2 = 0 then f else f + 1

/-- Python's `round(x, 2)` as used by `get_aggregates`. -/
def round2 (x : ℚ) : ℚ := mkRat (roundHalfEven (100 * x)) 100

/-- `np.mean` over the integer series of a window. -/
def ratAvgInt (xs : List Int) : ℚ := mkRat xs.sum xs.length

/-- `np.mean` over the rational (temperature) series of a window. -/
def ratAvgRat (xs : List ℚ) : ℚ := xs.sum / (xs.length : ℚ)

/-- The dictionary returned by `SlidingWindow.get_aggregates`
(src/worker/windows.py lines 31-38). -/
structure Aggregates where
  window_size_s : Int
  count : ℕ
  end_time : Int
  avg_hr : ℚ
  avg_spo2 : ℚ
  avg_temp : ℚ
deriving DecidableEq, Repr

/-- `SlidingWindow.get_aggregates` (src/worker/windows.py lines 19-38):
`None` on an empty window, else count, end time and 2-decimal means. -/
def SlidingWindow.get_aggregates (w : SlidingWindow) : Option Aggregates :=
  match w.events with
  | [] => none
  | es =>
    some { window_size_s := w.size_seconds
           count := es.length
           end_time := (es.getLastD default).timestamp
           avg_hr := round2 (ratAvgInt (es.map (fun e => e.hr)))
           avg_spo2 := round2 (ratAvgInt (es.map (fun e => e.spo2)))
           avg_temp := round2 (ratAvgRat (es.map (fun e => e.temp))) }

/-- `PatientStateManager` (src/worker/windows.py lines 40-47): the three
windows of one patient, 30 s / 120 s / 600 s. -/
structure PatientStateManager where
  patient_id : String
  w_30s : SlidingWindow
  w_2m : SlidingWindow
  w_10m : SlidingWindow
deriving DecidableEq, Repr

def PatientStateManager.init (pid : String) : PatientStateManager :=
  ⟨pid, ⟨30, []⟩, ⟨120, []⟩, ⟨600, []⟩⟩

/-- `PatientStateManager.add_reading` (src/worker/windows.py lines 49-54). -/
def PatientStateManager.add_reading (st : PatientStateManager)
    (r : WReading) : PatientStateManager :=
  { st with
    w_30s := st.w_30s.add_event r
    w_2m := st.w_2m.add_event r
    w_10m := st.w_10m.add_event r }

def PatientStateManager.addReadings (st : PatientStateManager) :
    List WReading → PatientStateManager
  | [] => st
  | r :: rs => (st.add_reading r).addReadings rs

def readingT100 : WReading := ⟨100, 72, 120, 80, 98, 16, 37⟩

def readingT5 : WReading := ⟨5, 72, 120, 80, 98, 16, 37⟩

def readingT120 : WReading := ⟨120, 72, 120, 80, 98, 16, 37⟩

/-- The manager state after the out-of-order sequence
t = 100, t = 5, t = 120. -/
def staleMgr : PatientStateManager :=
  (((PatientStateManager.init "pt-1").add_reading readingT100).add_reading
      readingT5).add_reading readingT120

/-- Counterexample to C5: after the out-of-order sequence t = 100, 5, 120
the 30 s window still retains the entry with timestamp 5, for which
`120 − 5 = 115 > 30`: pruning stops at the first in-range head (t = 100),
so a stale out-of-order entry behind it is never dropped. -/
theorem slidingWindow_retains_stale_entry :
    staleMgr.w_30s.events.map (fun e => e.timestamp) = [100, 5, 120] ∧
    staleMgr.w_30s.events.all
      (fun e => decide (readingT120.timestamp - e.timestamp ≤ 30)) = false := by
  refine ⟨by decide, by decide⟩

/-- The deque is sorted by timestamp (holds when arrivals are in order). -/
def TsSorted (l : List WReading) : Prop :=
  l.Pairwise (fun a b => a.timestamp ≤ b.timestamp)

lemma pruneHead_mem {c : Int} {l : List WReading} {e : WReading}
    (h : e ∈ pruneHead c l) : e ∈ l := by
  induction l with
  | nil => simpa [pruneHead] using h
  | cons a l ih =>
    by_cases hc : a.timestamp < c
    · rw [pruneHead, if_pos hc] at h
      exact List.mem_cons_of_mem a (ih h)
    · rwa [pruneHead, if_neg hc] at h

lemma pruneHead_sorted {c : Int} {l : List WReading} (h : TsSorted l) :
    TsSorted (pruneHead c l) := by
  induction l with
  | nil => simpa [pruneHead] using h
  | cons a l ih =>
    by_cases hc : a.timestamp < c
    · rw [pruneHead, if_pos hc]
      exact ih h.of_cons
    · rwa [pruneHead, if_neg hc]

lemma pruneHead_lower {c : Int} {l : List WReading} (h : TsSorted l) :
    ∀ e ∈ pruneHead c l, c ≤ e.timestamp := by
  induction l with
  | nil => intro e he; simp [pruneHead] at he
  | cons a l ih =>
    intro e he
    rw [pruneHead] at he
    by_cases hc : a.timestamp < c
    · rw [if_pos hc] at he
      exact ih h.of_cons e he
    · rw [if_neg hc] at he
      push_neg at hc
      rcases List.mem_cons.mp he with rfl | hmem
      · exact hc
      · exact le_trans hc (List.rel_of_pairwise_cons h hmem)

/-- Invariant of one window after an insertion whose reference timestamp is
`t`: sorted, no entry later than `t`, every entry within `size` of `t`. -/
def WindowInv (size t : Int) (l : List WReading) : Prop :=
  TsSorted l ∧ ∀ e ∈ l, e.timestamp ≤ t ∧ t - e.timestamp ≤ size

lemma add_event_windowInv {w : SlidingWindow} {r : WReading} {t : Int}
    (hinv : WindowInv w.size_seconds t w.events) (ht : t ≤ r.timestamp) :
    WindowInv w.size_seconds r.timestamp (w.add_event r).events := by
  obtain ⟨hsort, hbound⟩ := hinv
  have happ : TsSorted (w.events ++ [r]) := by
    unfold TsSorted
    rw [List.pairwise_append]
    refine ⟨hsort, List.pairwise_singleton _ _, ?_⟩
    intro a ha b hb
    rw [List.mem_singleton] at hb
    subst hb
    exact le_trans (hbound a ha).1 ht
  constructor
  · exact pruneHead_sorted happ
  · intro e he
    have hmem : e ∈ w.events ++ [r] := pruneHead_mem he
    have hup : e.timestamp ≤ r.timestamp := by
      rcases List.mem_append.mp hmem with hl | hr'
      · exact le_trans (hbound e hl).1 ht
      · rw [List.mem_singleton] at hr'
        subst hr'
        exact le_refl _
    have hlow := pruneHead_lower happ e he
    exact ⟨hup, by omega⟩

/-- The timestamp of the last reading of `rs`, or `t` when `rs` is empty. -/
def lastTs (t : Int) (rs : List WReading) : Int :=
  (rs.map (fun r => r.timestamp)).getLastD t

lemma lastTs_cons (t : Int) (r : WReading) (rs : List WReading) :
    lastTs t (r :: rs) = lastTs r.timestamp rs := by
  rw [lastTs, lastTs, List.map_cons, List.getLastD_cons]

lemma addAll_windowInv : ∀ (rs : List WReading) (w : SlidingWindow) (t : Int),
    WindowInv w.size_seconds t w.events →
    List.Chain' (fun a b => a.timestamp ≤ b.timestamp) rs →
    (∀ r₀ ∈ rs.head?, t ≤ r₀.timestamp) →
    WindowInv w.size_seconds (lastTs t rs) ((w.addAll rs).events) := by
  intro rs
  induction rs with
  | nil =>
    intro w t hinv _ _
    simpa [SlidingWindow.addAll, lastTs] using hinv
  | cons r rs ih =>
    intro w t hinv hchain hhead
    rw [lastTs_cons, SlidingWindow.addAll]
    have ht : t ≤ r.timestamp := hhead r (by simp)
    have hinv' := add_event_windowInv hinv ht
    rw [List.chain'_cons'] at hchain
    exact ih (w.add_event r) r.timestamp hinv' hchain.2 hchain.1

lemma addReadings_windows : ∀ (rs : List WReading) (st : PatientStateManager),
    (st.addReadings rs).w_30s = st.w_30s.addAll rs ∧
    (st.addReadings rs).w_2m = st.w_2m.addAll rs ∧
    (st.addReadings rs).w_10m = st.w_10m.addAll rs := by
  intro rs
  induction rs with
  | nil => intro st; exact ⟨rfl, rfl, rfl⟩
  | cons r rs ih => intro st; exact ⟨(ih _).1, (ih _).2.1, (ih _).2.2⟩

/-- C5 as amended: for a sequence of readings whose timestamps are
non-decreasing (in-order arrival), after processing, every entry retained in
each of the three windows is within that window's size of the newest
timestamp.  (The unrestricted claim, including out-of-order sequences, is
refuted by `slidingWindow_retains_stale_entry`.) -/
theorem windows_inOrder_bound (pid : String) (r : WReading)
    (rs : List WReading)
    (hchain : List.Chain' (fun a b => a.timestamp ≤ b.timestamp) (r :: rs)) :
    (∀ e ∈ ((PatientStateManager.init pid).addReadings (r :: rs)).w_30s.events,
        lastTs r.timestamp rs - e.timestamp ≤ 30) ∧
    (∀ e ∈ ((PatientStateManager.init pid).addReadings (r :: rs)).w_2m.events,
        lastTs r.timestamp rs - e.timestamp ≤ 120) ∧
    (∀ e ∈ ((PatientStateManager.init pid).addReadings (r :: rs)).w_10m.events,
        lastTs r.timestamp rs - e.timestamp ≤ 600) := by
  have hhead : ∀ r₀ ∈ (r :: rs).head?, r.timestamp ≤ r₀.timestamp := by
    intro x hx
    simp at hx
    subst hx
    exact le_refl _
  have hempty : ∀ size : Int,
      WindowInv size r.timestamp ([] : List WReading) :=
    fun _ => ⟨List.Pairwise.nil, by simp⟩
  have h30 := addAll_windowInv (r :: rs) ⟨30, []⟩ r.timestamp (hempty 30)
      hchain hhead
  have h120 := addAll_windowInv (r :: rs) ⟨120, []⟩ r.timestamp (hempty 120)
      hchain hhead
  have h600 := addAll_windowInv (r :: rs) ⟨600, []⟩ r.timestamp (hempty 600)
      hchain hhead
  rw [lastTs_cons] at h30 h120 h600
  refine ⟨?_, ?_, ?_⟩
  · rw [(addReadings_windows (r :: rs) _).1]
    intro e he
    exact (h30.2 e he).2
  · rw [(addReadings_windows (r :: rs) _).2.1]
    intro e he
    exact (h120.2 e he).2
  · rw [(addReadings_windows (r :: rs) _).2.2]
    intro e he
    exact (h600.2 e he).2

def readingW0 : WReading := ⟨0, 72, 120, 80, 98, 16, 37⟩

def readingW10 : WReading := ⟨10, 72, 120, 80, 98, 16, 37⟩

/-- Witness for the amended C5 on the in-order sequence t = 0, 10. -/
theorem windows_inOrder_bound_witness :
    (((PatientStateManager.init "pt-1").addReadings
        [readingW0, readingW10]).w_30s.events.all
      (fun e =>
        decide (lastTs readingW0.timestamp [readingW10] - e.timestamp ≤ 30)))
      = true := by
  have h := windows_inOrder_bound "pt-1" readingW0 [readingW10]
    (by rw [List.chain'_cons]
        exact ⟨by decide, List.chain'_singleton _⟩)
  rw [List.all_eq_true]
  intro e he
  exact decide_eq_true (h.1 e he)

/-- One decoded stream entry at the worker (`event_data` of
src/worker/processor.py): numeric fields already converted, and the result
of `datetime.fromisoformat(event_data['timestamp'])` modelled as an
`Option Int` — `none` when the string is unparseable. -/
structure EventData where
  patient_id : String
  tsParsed : Option Int
  hr : Int
  bp_sys : Int
  bp_dia : Int
  spo2 : Int
  rr : Int
  temp : ℚ
deriving DecidableEq, Repr

/-- The timestamp used by `process_event` (src/worker/processor.py lines
33-37): the parsed source timestamp, or — in the bare `except` branch —
the current wall clock `datetime.now()`. -/
def usedTimestamp (now : Int) (e : EventData) : Int := e.tsParsed.getD now

/-- A row of the `anomalies` table as inserted by the worker. -/
structure AnomalyRow where
  patient_id : String
  anomaly_type : String
  score : ℚ
  timestamp : Int
deriving DecidableEq, Repr

/-- Modelled from the spec: the durable schema of `anomalies` (§6) is
`anomalies(id serial pk, patient_id, anomaly_type enum, score real,
timestamp, details json)` — the DDL itself is not part of the source tree,
and this declared schema carries no uniqueness constraint.  The worker's
`INSERT INTO anomalies` (src/worker/processor.py lines 119-131) has no
conflict clause, so an insert appends a row unconditionally. -/
def insertAnomaly (table : List AnomalyRow) (row : AnomalyRow) :
    List AnomalyRow := table ++ [row]

/-- The anomaly-kind assignment of `process_event` (src/worker/processor.py
lines 102-117), using the 10-minute window aggregates and the inverted
anomaly score (`anomaly_score = -score_raw`, so higher = worse; `0.2` is
the source's multi-signal threshold).  The initial `a_type = "unknown"` of
line 104 is overwritten on every path. -/
def classifyKind (reading : WReading) (agg : Option Aggregates) (score : ℚ) :
    String :=
  match agg with
  | some a =>
    if 5 < a.count then
      if 20 < |(reading.hr : ℚ) - a.avg_hr| then "spike"
      else if 5 < |(reading.spo2 : ℚ) - a.avg_spo2| then "drop"
      else if mkRat 1 5 < score then "multi-signal"
      else "drift"
    else "spike"
  | none => "spike"

/-- The worker's state: the in-memory `patient_states` dictionary and the
durable `anomalies` table. -/
structure WorkerState where
  states : String → Option PatientStateManager
  anomalies : List AnomalyRow

/-- `patient_states` lookup-or-create (src/worker/processor.py lines
40-45). -/
def currentManager (ws : WorkerState) (pid : String) : PatientStateManager :=
  match ws.states pid with
  | some st => st
  | none => PatientStateManager.init pid

/-- `process_event` (src/worker/processor.py lines 22-132): resolve the
timestamp (wall-clock fallback), get or create the patient state, build the
typed reading, update the three windows, and — when the model flags the
reading (`isAnomaly`, with `score` the already-inverted anomaly score) —
classify and insert one anomaly row.  The threshold `print` logs (lines
62-65) and the skipped window-summary persistence (line 99) have no state
effect.  Parsing of the numeric fields is typed away; the only guarded
failure is the timestamp parse. -/
def process_event (isAnomaly : Bool) (score : ℚ) (now : Int) (e : EventData)
    (ws : WorkerState) : WorkerState :=
  let ts := usedTimestamp now e
  let reading : WReading := ⟨ts, e.hr, e.bp_sys, e.bp_dia, e.spo2, e.rr, e.temp⟩
  let st1 := (currentManager ws e.patient_id).add_reading reading
  let ws1 : WorkerState :=
    { ws with states := fun p => if p = e.patient_id then some st1
                                 else ws.states p }
  if isAnomaly then
    let a_type := classifyKind reading st1.w_10m.get_aggregates score
    { ws1 with anomalies :=
        insertAnomaly ws1.anomalies ⟨e.patient_id, a_type, score, ts⟩ }
  else ws1

/-- One loop-iteration body for a delivered entry (src/worker/processor.py
lines 167-170): `process_event`, then `XACK`.  Processing is total (the
only fallible parse is guarded by try/except), so the ack is always
reached. -/
def processAndAck (isAnomaly : Bool) (score : ℚ) (now : Int) (e : EventData)
    (ws : WorkerState) : WorkerState × Bool :=
  (process_event isAnomaly score now e ws, true)

/-- C6: when the model flags a reading, the kind is assigned by priority —
with at least 6 entries in the 10-minute window: `spike` on an hr deviation
above 20, else `drop` on an spo2 deviation above 5, else `multi-signal` on
score above 0.2, else `drift`; with 5 or fewer entries (including the empty
window) the kind is `spike`; and the aggregate count is the number of
retained entries.  Consequently the persisted anomaly row's kind — which
`process_event` takes from this classification — is always in the closed
set `{spike, drop, multi-signal, drift}`. -/
theorem classifyKind_priority :
    (∀ (r : WReading) (w : SlidingWindow) (score : ℚ) (a : Aggregates),
      w.get_aggregates = some a →
      (6 ≤ a.count →
        classifyKind r w.get_aggregates score =
          (if 20 < |(r.hr : ℚ) - a.avg_hr| then "spike"
           else if 5 < |(r.spo2 : ℚ) - a.avg_spo2| then "drop"
           else if mkRat 1 5 < score then "multi-signal"
           else "drift")) ∧
      (a.count ≤ 5 → classifyKind r w.get_aggregates score = "spike")) ∧
    (∀ (w : SlidingWindow) (a : Aggregates),
      w.get_aggregates = some a → a.count = w.events.length) ∧
    (∀ (r : WReading) (agg : Option Aggregates) (score : ℚ),
      classifyKind r agg score ∈ ["spike", "drop", "multi-signal", "drift"]) ∧
    (∀ (score : ℚ) (now : Int) (e : EventData) (ws : WorkerState),
      (process_event true score now e ws).anomalies =
        insertAnomaly ws.anomalies
          ⟨e.patient_id,
           classifyKind
             ⟨usedTimestamp now e, e.hr, e.bp_sys, e.bp_dia, e.spo2, e.rr,
              e.temp⟩
             (((currentManager ws e.patient_id).add_reading
                 ⟨usedTimestamp now e, e.hr, e.bp_sys, e.bp_dia, e.spo2,
                  e.rr, e.temp⟩).w_10m.get_aggregates)
             score,
           score, usedTimestamp now e⟩) := by
  refine ⟨?_, ?_, ?_, ?_⟩
  · intro r w score a hagg
    constructor
    · intro hcount
      rw [hagg, classifyKind]
      rw [if_pos (by omega)]
    · intro hcount
      rw [hagg, classifyKind]
      rw [if_neg (by omega)]
  · intro w a hagg
    rcases hw : w.events with _ | ⟨x, xs⟩ <;>
      rw [SlidingWindow.get_aggregates, hw] at hagg
    · exact absurd hagg (by simp)
    · cases hagg
      simp [hw]
  · intro r agg score
    rcases agg with _ | a
    · simp [classifyKind]
    · rw [classifyKind]
      split_ifs <;> simp
  · intro score now e ws
    rfl

/-- Witness for C6: a 10-minute window holding one entry (count 1 ≤ 5)
classifies as the startup default `spike`. -/
theorem classifyKind_priority_witness :
    classifyKind readingW0 (SlidingWindow.mk 600 [readingW0]).get_aggregates
      (mkRat 1 2) = "spike" :=
  (classifyKind_priority.1 readingW0 ⟨600, [readingW0]⟩ (mkRat 1 2) _
    rfl).2 (by decide)

/-- C10: on a timestamp that fails to parse (`tsParsed = none`) the worker
does not raise: it substitutes the wall clock `now`, processes the entry as
if the source timestamp had been `now` — so the window insertion and any
persisted anomaly row carry `now` — and the loop body still acknowledges
the entry. -/
theorem process_event_ts_fallback (isA : Bool) (score : ℚ) (now : Int)
    (e : EventData) (ws : WorkerState) (hparse : e.tsParsed = none) :
    usedTimestamp now e = now ∧
    process_event isA score now e ws =
      process_event isA score now { e with tsParsed := some now } ws ∧
    (process_event true score now e ws).anomalies =
      insertAnomaly ws.anomalies
        ⟨e.patient_id,
         classifyKind ⟨now, e.hr, e.bp_sys, e.bp_dia, e.spo2, e.rr, e.temp⟩
           (((currentManager ws e.patient_id).add_reading
               ⟨now, e.hr, e.bp_sys, e.bp_dia, e.spo2, e.rr,
                e.temp⟩).w_10m.get_aggregates)
           score,
         score, now⟩ ∧
    (processAndAck isA score now e ws).2 = true := by
  have hts : usedTimestamp now e = now := by
    rw [usedTimestamp, hparse]
    rfl
  refine ⟨hts, ?_, ?_, rfl⟩
  · rw [process_event, process_event]
    rw [hts]
    rfl
  · rw [process_event, hts]
    rfl

/-- An unparseable-timestamp stream entry. -/
def badTsEvent : EventData := ⟨"pt-3", none, 80, 120, 80, 97, 15, 37⟩

/-- The empty worker state. -/
def emptyWorker : WorkerState := ⟨fun _ => none, []⟩

/-- Witness for C10 at a concrete unparseable entry: the anomaly row's
timestamp is the wall clock (here 1000). -/
theorem process_event_ts_fallback_witness :
    usedTimestamp 1000 badTsEvent = 1000 ∧
    (process_event true (mkRat 1 2) 1000 badTsEvent emptyWorker).anomalies =
      insertAnomaly emptyWorker.anomalies
        ⟨badTsEvent.patient_id,
         classifyKind
           ⟨1000, badTsEvent.hr, badTsEvent.bp_sys, badTsEvent.bp_dia,
            badTsEvent.spo2, badTsEvent.rr, badTsEvent.temp⟩
           (((currentManager emptyWorker badTsEvent.patient_id).add_reading
               ⟨1000, badTsEvent.hr, badTsEvent.bp_sys, badTsEvent.bp_dia,
                badTsEvent.spo2, badTsEvent.rr,
                badTsEvent.temp⟩).w_10m.get_aggregates)
           (mkRat 1 2),
         mkRat 1 2, 1000⟩ :=
  ⟨(process_event_ts_fallback true (mkRat 1 2) 1000 badTsEvent emptyWorker
      (by decide)).1,
   (process_event_ts_fallback true (mkRat 1 2) 1000 badTsEvent emptyWorker
      (by decide)).2.2.1⟩

/-- A stream entry whose reading the model flags as anomalous. -/
def dupEvent : EventData := ⟨"pt-9", some 50, 150, 120, 80, 95, 16, 37⟩

/-- The worker state after processing `dupEvent` twice (redelivery after a
crash between processing and acknowledgment). -/
def processedTwice : WorkerState :=
  process_event true (mkRat 1 2) 0 dupEvent
    (process_event true (mkRat 1 2) 0 dupEvent emptyWorker)

/-- Counterexample to C4: processing the same flagged entry twice inserts
two anomaly rows with the same `(patient_id, timestamp, kind)` — the
declared `anomalies` schema has no uniqueness constraint and the INSERT has
no conflict clause, so re-processing is not idempotent on the anomalies
table. -/
theorem anomaly_insert_not_idempotent :
    processedTwice.anomalies.map
      (fun a => (a.patient_id, a.timestamp, a.anomaly_type)) =
      [("pt-9", 50, "spike"), ("pt-9", 50, "spike")] ∧
    processedTwice.anomalies.countP
      (fun a => a.patient_id == "pt-9" && a.timestamp == 50 &&
        a.anomaly_type == "spike") = 2 := by
  refine ⟨by decide, by decide⟩

/-- C4 as amended: re-processing a flagged entry appends a second anomaly
row with the same patient and timestamp (its kind is re-computed against
the then-current window state); the table grows by one row per processing,
it is not left unchanged. -/
theorem process_event_redelivery_duplicates (score : ℚ) (now : Int)
    (e : EventData) (ws : WorkerState) :
    (process_event true score now e
        (process_event true score now e ws)).anomalies.length =
      ws.anomalies.length + 2 ∧
    ((process_event true score now e
        (process_event true score now e ws)).anomalies.drop
          ws.anomalies.length).map (fun a => (a.patient_id, a.timestamp)) =
      [(e.patient_id, usedTimestamp now e),
       (e.patient_id, usedTimestamp now e)] := by
  constructor
  · simp [process_event, insertAnomaly]
  · simp only [process_event, insertAnomaly, if_true]
    rw [List.append_assoc, List.drop_left]
    rfl

/-- The delivery state of the consumer group for this consumer: entries
delivered in a previous run but never acknowledged (pending), and entries
never delivered to the group (new). -/
structure StreamGroupState where
  pending : List EventData
  newEntries : List EventData
deriving DecidableEq, Repr

inductive RedisErr
  | busygroup
  | connError (msg : String)
deriving DecidableEq, Repr

/-- `XGROUP CREATE` with `mkstream` (src/worker/processor.py line 153):
raises the BUSYGROUP response error when the group already exists. -/
def xgroup_create (groupAlreadyExists connFail : Bool) :
    Except RedisErr Unit :=
  if connFail then .error (.connError "connection refused")
  else if groupAlreadyExists then .error .busygroup
  else .ok ()

/-- The worker's startup group creation (src/worker/processor.py lines
151-156): a response error whose message contains `BUSYGROUP` is
swallowed; any other error is re-raised. -/
def createGroupStartup (groupAlreadyExists connFail : Bool) :
    Except RedisErr Unit :=
  match xgroup_create groupAlreadyExists connFail with
  | .ok _ => .ok ()
  | .error .busygroup => .ok ()
  | .error e => .error e

/-- What the worker's `xreadgroup` delivers (src/worker/processor.py line
163): the id `">"` requests only never-delivered entries; the pending list
is not consulted — pending-entry recovery is an explicit TODO at line
172. -/
def startupDelivered (s : StreamGroupState) : List EventData := s.newEntries

/-- An entry left pending (delivered, unacked) by a previous worker run. -/
def pendingEvent : EventData := ⟨"pt-7", some 10, 80, 120, 80, 97, 15, 37⟩

def otherEvent : EventData := ⟨"pt-8", some 20, 70, 110, 70, 99, 14, 36⟩

/-- Counterexample to C7: with one pending entry and no new entries, the
worker's startup read delivers nothing — the pending entry is never
enumerated or re-processed. -/
theorem worker_startup_skips_pending :
    startupDelivered ⟨[pendingEvent], []⟩ = [] ∧
    pendingEvent ∉ startupDelivered ⟨[pendingEvent], []⟩ ∧
    pendingEvent ∈ (StreamGroupState.mk [pendingEvent] []).pending := by
  refine ⟨rfl, by decide, by decide⟩

/-- C7 as amended: on startup the worker creates the consumer group
idempotently (`BUSYGROUP` is swallowed; other errors propagate), but its
reads deliver only never-delivered entries; a pending entry that is not
also a new entry is never delivered. -/
theorem worker_startup_reads_new_only :
    (∀ ge : Bool, createGroupStartup ge false = .ok ()) ∧
    (∀ ge : Bool,
      createGroupStartup ge true = .error (.connError "connection refused")) ∧
    (∀ s : StreamGroupState, startupDelivered s = s.newEntries) ∧
    (∀ (s : StreamGroupState) (e : EventData),
      e ∈ s.pending → e ∉ s.newEntries → e ∉ startupDelivered s) := by
  refine ⟨?_, ?_, fun s => rfl, ?_⟩
  · intro ge
    cases ge <;> rfl
  · intro ge
    cases ge <;> rfl
  · intro s e hp hn
    simpa [startupDelivered] using hn

/-- Witness for the amended C7: the group creation succeeds though the
group exists, and a pending entry is not among the delivered ones. -/
theorem worker_startup_reads_new_only_witness :
    createGroupStartup true false = .ok () ∧
    pendingEvent ∉ startupDelivered ⟨[pendingEvent], [otherEvent]⟩ :=
  ⟨worker_startup_reads_new_only.1 true,
   worker_startup_reads_new_only.2.2.2 ⟨[pendingEvent], [otherEvent]⟩
     pendingEvent (by decide) (by decide)⟩
